import Mathlib

/-!
Verification of the witness-execution driver `execute_circuit`
(src/crates/nargo/src/ops/execute.rs) of the `noir` repository.

The driver owns the solve / suspend / resume loop over an external
constraint-solving engine (the `acvm` crate, out of scope of the
repository slice) and a foreign-call dispatcher.  The solver is embedded
as an abstract deterministic interface `ACVMSpec` exposing exactly the
operations the driver consumes: `new`, `solve`, `resolve_pending_foreign_call`
and `finalize`, plus an observable view `assignedKeys` of the witness
store (the set of assigned witness indices), per the spec's data model.
Field elements are abstracted as `Nat`: the driver never inspects them.
The dispatcher `ForeignCall.execute` lives in
crates/nargo/src/ops/foreign_calls.rs, which is not among the provided
sources; it is modelled from the spec (section 4.2).
-/

/-- A witness index paired with a field-element value; the Witness Store is
an association list from witness index to field element. -/
abbrev WitnessMap := List (Nat × Nat)

/-- An opcode is opaque to the driver: the loop never inspects it, only the
external solver does.  Modelled as an abstract token. -/
structure Opcode where
  code : Nat
deriving DecidableEq, Repr

/-- The immutable compiled circuit: an ordered sequence of opcodes. -/
structure Circuit where
  opcodes : List Opcode
deriving DecidableEq, Repr

/-- A foreign-call request: a call identifier together with the ordered
sequence of witness-backed input values (possibly nested). -/
structure ForeignCallRequest where
  function : String
  inputs : List (List Nat)
deriving DecidableEq, Repr

/-- A foreign-call result: an ordered (possibly nested) sequence of
field-element values, fed back verbatim into the solver. -/
structure ForeignCallResult where
  values : List (List Nat)
deriving DecidableEq, Repr

/-- The error detail produced by the external solver when solving fails
(`acvm::pwg::OpcodeResolutionError`); opaque to the driver, carried
verbatim. -/
structure OpcodeResolutionError where
  detail : String
deriving DecidableEq, Repr

/-- The four-way status enumeration returned by `ACVM::solve`. -/
inductive ACVMStatus where
  | Solved
  | InProgress
  | Failure (error : OpcodeResolutionError)
  | RequiresForeignCall (foreign_call : ForeignCallRequest)
deriving DecidableEq, Repr

/-- The typed error returned by the driver (`NargoError`): a solver failure
(converted from `OpcodeResolutionError` via `.into()`), an
unknown-foreign-call dispatch error, or a result-shape mismatch.  The
`unreachable!` arm for `InProgress` is a panic, not a `NargoError`, and is
modelled separately in `ExecOutcome`. -/
inductive NargoError where
  | solverFailure (detail : OpcodeResolutionError)
  | unknownForeignCall (ident : String)
  | resultShapeMismatch
deriving DecidableEq, Repr

/-- The `error.into()` conversion applied in the `Failure` arm of the loop. -/
def intoNargoError (e : OpcodeResolutionError) : NargoError :=
  NargoError.solverFailure e

/-- The outcome of running `execute_circuit`: `Ok(witness)`, a typed
`Err(NargoError)`, a panic (the `unreachable!` arm), or fuel exhaustion
(the Rust loop has no fuel; `outOfFuel` marks a run the finite model could
not finish and is never identified with any Rust outcome). -/
inductive ExecOutcome where
  | ok (witness : WitnessMap)
  | err (e : NargoError)
  | panicked (msg : String)
  | outOfFuel
deriving DecidableEq, Repr

/-- The abstract interface of the external constraint-solving engine
(`acvm::pwg::ACVM` together with its pluggable black-box solver), exactly
the operations `execute_circuit` consumes: construction from opcodes and an
initial witness, `solve`, `resolve_pending_foreign_call`, `finalize`; plus
`assignedKeys`, the observable set of assigned witness indices of the
solver's witness store (spec section 3, Witness Store). `solve` mutates the
solver state and returns a status, so it is embedded as
`S → S × ACVMStatus`. -/
structure ACVMSpec (S : Type) where
  new : List Opcode → WitnessMap → S
  solve : S → S × ACVMStatus
  resolve_pending_foreign_call : S → ForeignCallResult → S
  finalize : S → WitnessMap
  assignedKeys : S → Finset Nat

/-- A dispatcher as the driver sees it: from a request and the
`show_output` flag to either a result or a typed error. -/
abbrev Dispatcher := ForeignCallRequest → Bool → Except NargoError ForeignCallResult

/-- The panic message of the `unreachable!` arm in execute.rs. -/
def inProgressPanicMsg : String :=
  "Execution should not stop while in `InProgress` state."

/-- The loop of `execute_circuit` (execute.rs lines 17-31), as a fueled
recursion: each iteration calls `solve`, then matches the status exactly as
the Rust `match` does — `Solved` breaks and finalizes, `InProgress` panics
via `unreachable!`, `Failure(error)` returns `Err(error.into())`, and
`RequiresForeignCall(foreign_call)` dispatches the request, propagates a
dispatch error via `?`, otherwise feeds the result to
`resolve_pending_foreign_call` and continues. -/
def executeLoop {S : Type} (I : ACVMSpec S) (D : Dispatcher) (show_output : Bool) :
    Nat → S → ExecOutcome
  | 0, _ => ExecOutcome.outOfFuel
  | fuel + 1, acvm =>
    match I.solve acvm with
    | (acvm1, ACVMStatus.Solved) => ExecOutcome.ok (I.finalize acvm1)
    | (_, ACVMStatus.InProgress) => ExecOutcome.panicked inProgressPanicMsg
    | (_, ACVMStatus.Failure error) => ExecOutcome.err (intoNargoError error)
    | (acvm1, ACVMStatus.RequiresForeignCall foreign_call) =>
      match D foreign_call show_output with
      | Except.ok foreign_call_result =>
        executeLoop I D show_output fuel
          (I.resolve_pending_foreign_call acvm1 foreign_call_result)
      | Except.error e => ExecOutcome.err e

/-- What the dispatcher produces: the value returned to the driver, plus the
lines rendered to the caller's output sink as a side effect. -/
structure DispatchOutput where
  result : Except NargoError ForeignCallResult
  rendered : List String
deriving Repr

/-- Rendering of the decoded input values of a print call. -/
def decodeToText (inputs : List (List Nat)) : String :=
  toString inputs

namespace ForeignCall

/-- Modelled from the spec: the recognized vocabulary of call identifiers of
the Foreign Call Dispatcher (spec section 4.2) — a print/echo call for debug
output and an assert-message call; the concrete source
crates/nargo/src/ops/foreign_calls.rs is not among the provided files. -/
def vocabulary : List String := ["println", "assert_message"]

/-- Modelled from the spec: `ForeignCall::execute(request, show_output)`
(spec section 4.2); the source crates/nargo/src/ops/foreign_calls.rs is not
among the provided files.  A print call renders its decoded inputs to the
output sink exactly when `show_output` is set and returns the (empty) result
the solver needs to continue; an assert-message call returns its (empty)
result; any unrecognized identifier fails with the distinct
`UnknownForeignCall` error and never a partial result. -/
def execute (req : ForeignCallRequest) (show_output : Bool) : DispatchOutput :=
  if req.function = "println" then
    ⟨Except.ok ⟨[]⟩, if show_output then [decodeToText req.inputs] else []⟩
  else if req.function = "assert_message" then
    ⟨Except.ok ⟨[]⟩, []⟩
  else
    ⟨Except.error (NargoError.unknownForeignCall req.function), []⟩

end ForeignCall

/-- The dispatcher as consumed by the driver: the value component of
`ForeignCall.execute` (its rendering is a side effect on the output sink,
not data flowing back into the loop). -/
def foreignCallDispatch : Dispatcher :=
  fun req show_output => (ForeignCall.execute req show_output).result

/-- `execute_circuit` (execute.rs lines 9-35): construct the ACVM from the
circuit's opcodes and the initial witness, run the loop, and on `Solved`
return the finalized witness store.  `fuel` bounds the number of loop
iterations of the finite model. -/
def execute_circuit {S : Type} (I : ACVMSpec S) (fuel : Nat)
    (circuit : Circuit) (initial_witness : WitnessMap) (show_output : Bool) :
    ExecOutcome :=
  executeLoop I foreignCallDispatch show_output fuel
    (I.new circuit.opcodes initial_witness)

/-- Instrumentation of `executeLoop`: the number of `solve` calls the loop
performs, following exactly the recursion of `executeLoop` (every iteration
makes one `solve` call; only a successfully dispatched foreign call leads to
another iteration). -/
def solveCalls {S : Type} (I : ACVMSpec S) (D : Dispatcher) (show_output : Bool) :
    Nat → S → Nat
  | 0, _ => 0
  | fuel + 1, acvm =>
    match I.solve acvm with
    | (acvm1, ACVMStatus.RequiresForeignCall foreign_call) =>
      match D foreign_call show_output with
      | Except.ok foreign_call_result =>
        1 + solveCalls I D show_output fuel
          (I.resolve_pending_foreign_call acvm1 foreign_call_result)
      | Except.error _ => 1
    | _ => 1

/-- Instrumentation of `executeLoop`: the number of `finalize` calls the
loop performs — `finalize` is invoked only in the `Solved` arm. -/
def finalizeCalls {S : Type} (I : ACVMSpec S) (D : Dispatcher) (show_output : Bool) :
    Nat → S → Nat
  | 0, _ => 0
  | fuel + 1, acvm =>
    match I.solve acvm with
    | (_, ACVMStatus.Solved) => 1
    | (_, ACVMStatus.InProgress) => 0
    | (_, ACVMStatus.Failure _) => 0
    | (acvm1, ACVMStatus.RequiresForeignCall foreign_call) =>
      match D foreign_call show_output with
      | Except.ok foreign_call_result =>
        finalizeCalls I D show_output fuel
          (I.resolve_pending_foreign_call acvm1 foreign_call_result)
      | Except.error _ => 0

/-- One full suspension-resumption round of the loop: `solve` returns
`RequiresForeignCall`, the dispatch succeeds, and the result is fed to
`resolve_pending_foreign_call`; yields the solver state at the top of the
next iteration, `none` when this iteration does not suspend-and-resume. -/
def resumeOnce {S : Type} (I : ACVMSpec S) (D : Dispatcher) (show_output : Bool)
    (acvm : S) : Option S :=
  match I.solve acvm with
  | (acvm1, ACVMStatus.RequiresForeignCall foreign_call) =>
    match D foreign_call show_output with
    | Except.ok foreign_call_result =>
      some (I.resolve_pending_foreign_call acvm1 foreign_call_result)
    | Except.error _ => none
  | _ => none

/-- The solver state at the top of the loop after `k` suspension-resumption
rounds, when the execution performs at least `k` of them. -/
def resumeN {S : Type} (I : ACVMSpec S) (D : Dispatcher) (show_output : Bool) :
    Nat → S → Option S
  | 0, acvm => some acvm
  | k + 1, acvm =>
    match resumeOnce I D show_output acvm with
    | some acvm1 => resumeN I D show_output k acvm1
    | none => none

/-- The external solver's contract on the witness store (spec section 3:
partial, monotonically filled, single assignment): neither `solve` nor
`resolve_pending_foreign_call` ever removes an assigned witness index. -/
def SolveMonotone {S : Type} (I : ACVMSpec S) : Prop :=
  (∀ s : S, I.assignedKeys s ⊆ I.assignedKeys (I.solve s).1) ∧
  (∀ (s : S) (r : ForeignCallResult),
    I.assignedKeys s ⊆ I.assignedKeys (I.resolve_pending_foreign_call s r))

/-- The driver's control state, one constructor per program point of the
loop body of execute.rs: `running` is the top of the loop (about to call
`solve`); `dispatching` holds the single pending request between the
`RequiresForeignCall` status and its dispatch; `resolving` holds the
dispatched result about to be fed to `resolve_pending_foreign_call`;
`done`, `failed` and `panicked` are the terminal exits. -/
inductive DState (S : Type) where
  | running (s : S)
  | dispatching (s : S) (req : ForeignCallRequest)
  | resolving (s : S) (res : ForeignCallResult)
  | done (witness : WitnessMap)
  | failed (e : NargoError)
  | panicked

/-- The number of unresolved foreign-call requests the driver holds in a
given control state: only `dispatching` holds one. -/
def pendingRequests {S : Type} : DState S → Nat
  | DState.dispatching _ _ => 1
  | _ => 0

/-- Small-step transition relation of the driver loop, one constructor per
arm of the `match` in execute.rs plus the dispatch / resolve sub-steps of
the `RequiresForeignCall` arm. -/
inductive Step {S : Type} (I : ACVMSpec S) (D : Dispatcher) (show_output : Bool) :
    DState S → DState S → Prop where
  | solveSolved (s s1 : S) :
      I.solve s = (s1, ACVMStatus.Solved) →
      Step I D show_output (DState.running s) (DState.done (I.finalize s1))
  | solveInProgress (s s1 : S) :
      I.solve s = (s1, ACVMStatus.InProgress) →
      Step I D show_output (DState.running s) DState.panicked
  | solveFailure (s s1 : S) (error : OpcodeResolutionError) :
      I.solve s = (s1, ACVMStatus.Failure error) →
      Step I D show_output (DState.running s) (DState.failed (intoNargoError error))
  | solveForeign (s s1 : S) (foreign_call : ForeignCallRequest) :
      I.solve s = (s1, ACVMStatus.RequiresForeignCall foreign_call) →
      Step I D show_output (DState.running s) (DState.dispatching s1 foreign_call)
  | dispatchOk (s : S) (req : ForeignCallRequest) (res : ForeignCallResult) :
      D req show_output = Except.ok res →
      Step I D show_output (DState.dispatching s req) (DState.resolving s res)
  | dispatchErr (s : S) (req : ForeignCallRequest) (e : NargoError) :
      D req show_output = Except.error e →
      Step I D show_output (DState.dispatching s req) (DState.failed e)
  | resolveStep (s : S) (res : ForeignCallResult) :
      Step I D show_output (DState.resolving s res)
        (DState.running (I.resolve_pending_foreign_call s res))

/-- A demonstration solver used to exercise the driver on concrete runs:
state `0` suspends with a single `println` foreign call, every later state
solves; the assigned-key view grows with the state. -/
def demoSpec : ACVMSpec Nat :=
  ⟨fun _ _ => 0,
   fun s =>
     match s with
     | 0 => (1, ACVMStatus.RequiresForeignCall ⟨"println", [[7]]⟩)
     | n + 1 => (n + 1, ACVMStatus.Solved),
   fun s _ => s + 1,
   fun _ => [(0, 7)],
   fun s => Finset.range s⟩

/-- A demonstration solver whose `solve` reports `InProgress`. -/
def inProgressSpec : ACVMSpec Unit :=
  ⟨fun _ _ => (), fun _ => ((), ACVMStatus.InProgress), fun _ _ => (),
   fun _ => [], fun _ => ∅⟩

/-- A demonstration solver whose `solve` fails with detail "unsat". -/
def failSpec : ACVMSpec Unit :=
  ⟨fun _ _ => (), fun _ => ((), ACVMStatus.Failure ⟨"unsat"⟩), fun _ _ => (),
   fun _ => [], fun _ => ∅⟩

/-- A demonstration solver that requests a foreign call with an identifier
outside the dispatcher's vocabulary. -/
def unknownCallSpec : ACVMSpec Unit :=
  ⟨fun _ _ => (),
   fun _ => ((), ACVMStatus.RequiresForeignCall ⟨"frobnicate", []⟩),
   fun _ _ => (), fun _ => [], fun _ => ∅⟩

/-- A demonstration solver that solves immediately. -/
def solvedSpec : ACVMSpec Unit :=
  ⟨fun _ _ => (), fun _ => ((), ACVMStatus.Solved), fun _ _ => (),
   fun _ => [(0, 1)], fun _ => {0}⟩

/-- Whether an outcome is a typed `Err(NargoError)` result. -/
def isTypedErr : ExecOutcome → Bool
  | ExecOutcome.err _ => true
  | _ => false

/-- C1: when a `solve` call returns `Solved`, the loop body at that
iteration breaks out of the loop, calls `finalize` on the solver state left
by that `solve` call, and returns the finalized witness store as the `Ok`
result, regardless of the remaining fuel, the dispatcher or the flag. -/
theorem solved_breaks_and_finalizes {S : Type} (I : ACVMSpec S) (D : Dispatcher)
    (show_output : Bool) (fuel : Nat) (s s1 : S)
    (h : I.solve s = (s1, ACVMStatus.Solved)) :
    executeLoop I D show_output (fuel + 1) s = ExecOutcome.ok (I.finalize s1) := by
  simp [executeLoop, h]

/-- Witness for C1 at the demonstration solver in its solved state. -/
theorem solved_breaks_and_finalizes_witness :
    executeLoop demoSpec foreignCallDispatch true 1 1 =
      ExecOutcome.ok (demoSpec.finalize 1) :=
  solved_breaks_and_finalizes demoSpec foreignCallDispatch true 0 1 1 rfl

/-- C2: when a `solve` call returns `RequiresForeignCall(request)`, and
dispatching exactly that request succeeds with some result, the loop feeds
precisely that result into `resolve_pending_foreign_call` on the solver
state left by that `solve` call (so no already-solved constraint is redone
or skipped: the suspended solver state is carried forward unchanged), and
continues the loop with another `solve` call from the resolved state. -/
theorem foreign_call_dispatch_resolve_continue {S : Type} (I : ACVMSpec S)
    (D : Dispatcher) (show_output : Bool) (fuel : Nat) (s s1 : S)
    (fc : ForeignCallRequest) (res : ForeignCallResult)
    (h : I.solve s = (s1, ACVMStatus.RequiresForeignCall fc))
    (hd : D fc show_output = Except.ok res) :
    executeLoop I D show_output (fuel + 1) s =
      executeLoop I D show_output fuel (I.resolve_pending_foreign_call s1 res) := by
  simp [executeLoop, h, hd]

/-- Witness for C2 at the demonstration solver's suspending state. -/
theorem foreign_call_dispatch_resolve_continue_witness :
    executeLoop demoSpec foreignCallDispatch true 2 0 =
      executeLoop demoSpec foreignCallDispatch true 1
        (demoSpec.resolve_pending_foreign_call 1 ⟨[]⟩) :=
  foreign_call_dispatch_resolve_continue demoSpec foreignCallDispatch true 1 0 1
    ⟨"println", [[7]]⟩ ⟨[]⟩ rfl (by simp [foreignCallDispatch, ForeignCall.execute])

/-- C3 counterexample: the claim says an `InProgress` status is returned to
the caller as a typed result like the other error classes; on the code, the
`InProgress` arm is `unreachable!`, a panic — at a solver reporting
`InProgress` the outcome is the panic, not a typed `Err` result. -/
theorem inprogress_panic_counterexample :
    executeLoop inProgressSpec foreignCallDispatch true 1 () =
      ExecOutcome.panicked inProgressPanicMsg ∧
    isTypedErr (executeLoop inProgressSpec foreignCallDispatch true 1 ()) = false := by
  exact ⟨rfl, rfl⟩

/-- C3 (amended): when a `solve` call returns `InProgress`, the driver
stops the loop immediately — exactly one `solve` call is made — but it
treats the condition as a fatal internal invariant violation via the
`unreachable!` panic, not as a typed `Err` result like the other three
error classes. -/
theorem inprogress_halts_with_panic {S : Type} (I : ACVMSpec S) (D : Dispatcher)
    (show_output : Bool) (fuel : Nat) (s s1 : S)
    (h : I.solve s = (s1, ACVMStatus.InProgress)) :
    executeLoop I D show_output (fuel + 1) s =
      ExecOutcome.panicked inProgressPanicMsg ∧
    isTypedErr (executeLoop I D show_output (fuel + 1) s) = false ∧
    solveCalls I D show_output (fuel + 1) s = 1 := by
  refine ⟨?_, ?_, ?_⟩ <;> simp [executeLoop, solveCalls, isTypedErr, h]

/-- Witness for the amended C3 at a solver reporting `InProgress`. -/
theorem inprogress_halts_with_panic_witness :
    executeLoop inProgressSpec foreignCallDispatch true 1 () =
      ExecOutcome.panicked inProgressPanicMsg ∧
    isTypedErr (executeLoop inProgressSpec foreignCallDispatch true 1 ()) = false ∧
    solveCalls inProgressSpec foreignCallDispatch true 1 () = 1 :=
  inprogress_halts_with_panic inProgressSpec foreignCallDispatch true 0 () () rfl

/-- C4: when a `solve` call returns `Failure(detail)`, the loop terminates
at once with `Err(detail.into())` — the detail converted to the typed
execution error — and the total number of `solve` calls in that run is
exactly one more than those already made: no further `solve` call and no
retry happens after the failing one. -/
theorem failure_terminates_no_retry {S : Type} (I : ACVMSpec S) (D : Dispatcher)
    (show_output : Bool) (fuel : Nat) (s s1 : S) (error : OpcodeResolutionError)
    (h : I.solve s = (s1, ACVMStatus.Failure error)) :
    executeLoop I D show_output (fuel + 1) s =
      ExecOutcome.err (intoNargoError error) ∧
    solveCalls I D show_output (fuel + 1) s = 1 := by
  refine ⟨?_, ?_⟩ <;> simp [executeLoop, solveCalls, h]

/-- Witness for C4 at the failing demonstration solver. -/
theorem failure_terminates_no_retry_witness :
    executeLoop failSpec foreignCallDispatch true 5 () =
      ExecOutcome.err (intoNargoError ⟨"unsat"⟩) ∧
    solveCalls failSpec foreignCallDispatch true 5 () = 1 :=
  failure_terminates_no_retry failSpec foreignCallDispatch true 4 () () ⟨"unsat"⟩ rfl

/-- C5: the driver never buffers foreign-call requests — every control
state of the loop holds at most one unresolved request — and each
`RequiresForeignCall` status is handled by a strict three-step sequence
before the next `solve` call: the only step out of `running` when `solve`
suspends is dispatching exactly the emitted request, the only step out of
`dispatching` on a successful dispatch is resolving with exactly the
dispatched result, and the only step out of `resolving` feeds exactly that
result to `resolve_pending_foreign_call` and returns to the top of the
loop. -/
theorem driver_single_outstanding_request {S : Type} (I : ACVMSpec S)
    (D : Dispatcher) (show_output : Bool) :
    (∀ st : DState S, pendingRequests st ≤ 1) ∧
    (∀ (s s1 : S) (fc : ForeignCallRequest) (st : DState S),
      I.solve s = (s1, ACVMStatus.RequiresForeignCall fc) →
      Step I D show_output (DState.running s) st → st = DState.dispatching s1 fc) ∧
    (∀ (s : S) (fc : ForeignCallRequest) (res : ForeignCallResult) (st : DState S),
      D fc show_output = Except.ok res →
      Step I D show_output (DState.dispatching s fc) st →
      st = DState.resolving s res) ∧
    (∀ (s : S) (res : ForeignCallResult) (st : DState S),
      Step I D show_output (DState.resolving s res) st →
      st = DState.running (I.resolve_pending_foreign_call s res)) := by
  refine ⟨?_, ?_, ?_, ?_⟩
  · intro st
    cases st <;> simp [pendingRequests]
  · intro s s1 fc st hs hstep
    cases hstep with
    | solveSolved _ s2 h => rw [hs] at h; simp at h
    | solveInProgress _ s2 h => rw [hs] at h; simp at h
    | solveFailure _ s2 e h => rw [hs] at h; simp at h
    | solveForeign _ s2 fc2 h =>
      rw [hs] at h
      obtain ⟨h1, h2⟩ := Prod.mk.injEq .. ▸ h
      cases h2
      rw [h1]
  · intro s fc res st hd hstep
    cases hstep with
    | dispatchOk _ _ res2 h => rw [hd] at h; cases h; rfl
    | dispatchErr _ _ e h => rw [hd] at h; cases h
  · intro s res st hstep
    cases hstep
    rfl

/-- Witness for C5: the step out of `running 0` at the demonstration
solver dispatches the emitted `println` request. -/
theorem driver_single_outstanding_request_witness :
    DState.dispatching (1 : Nat) (⟨"println", [[7]]⟩ : ForeignCallRequest) =
      DState.dispatching 1 ⟨"println", [[7]]⟩ :=
  (driver_single_outstanding_request demoSpec foreignCallDispatch true).2.1 0 1
    ⟨"println", [[7]]⟩ (DState.dispatching 1 ⟨"println", [[7]]⟩) rfl
    (Step.solveForeign 0 1 ⟨"println", [[7]]⟩ rfl)

/-- Two runs of the loop from the same solver state, with the same
interface, dispatcher and flag, that both complete within their fuel agree
exactly. -/
theorem executeLoop_deterministic {S : Type} (I : ACVMSpec S) (D : Dispatcher)
    (show_output : Bool) :
    ∀ (n1 n2 : Nat) (s : S),
    executeLoop I D show_output n1 s ≠ ExecOutcome.outOfFuel →
    executeLoop I D show_output n2 s ≠ ExecOutcome.outOfFuel →
    executeLoop I D show_output n1 s = executeLoop I D show_output n2 s := by
  intro n1
  induction n1 with
  | zero =>
    intro n2 s h1 _
    exact absurd rfl h1
  | succ n ih =>
    intro n2 s h1 h2
    cases n2 with
    | zero => exact absurd rfl h2
    | succ m =>
      rcases hs : I.solve s with ⟨s1, st⟩
      cases st with
      | Solved => simp [executeLoop, hs]
      | InProgress => simp [executeLoop, hs]
      | Failure e => simp [executeLoop, hs]
      | RequiresForeignCall fc =>
        cases hd : D fc show_output with
        | ok res =>
          have h1a : executeLoop I D show_output n
              (I.resolve_pending_foreign_call s1 res) ≠ ExecOutcome.outOfFuel := by
            simpa [executeLoop, hs, hd] using h1
          have h2a : executeLoop I D show_output m
              (I.resolve_pending_foreign_call s1 res) ≠ ExecOutcome.outOfFuel := by
            simpa [executeLoop, hs, hd] using h2
          simpa [executeLoop, hs, hd] using
            ih m (I.resolve_pending_foreign_call s1 res) h1a h2a
        | error e => simp [executeLoop, hs, hd]

/-- C6: determinism of the driver — two runs of `execute_circuit` with the
same solver interface, circuit, initial witness and `show_output` flag that
both complete (differing only in fuel, the finite model's iteration bound)
produce the identical outcome: the identical final witness store, the
identical typed error, or the identical panic. -/
theorem execute_circuit_deterministic {S : Type} (I : ACVMSpec S)
    (n1 n2 : Nat) (circuit : Circuit) (initial_witness : WitnessMap)
    (show_output : Bool)
    (h1 : execute_circuit I n1 circuit initial_witness show_output ≠
      ExecOutcome.outOfFuel)
    (h2 : execute_circuit I n2 circuit initial_witness show_output ≠
      ExecOutcome.outOfFuel) :
    execute_circuit I n1 circuit initial_witness show_output =
      execute_circuit I n2 circuit initial_witness show_output :=
  executeLoop_deterministic I foreignCallDispatch show_output n1 n2
    (I.new circuit.opcodes initial_witness) h1 h2

/-- Witness for C6: two completing runs of different fuel at the
immediately-solved demonstration solver agree. -/
theorem execute_circuit_deterministic_witness :
    execute_circuit solvedSpec 1 ⟨[]⟩ [] true =
      execute_circuit solvedSpec 2 ⟨[]⟩ [] true :=
  execute_circuit_deterministic solvedSpec 1 2 ⟨[]⟩ [] true
    (by decide) (by decide)

/-- The dispatcher's value component does not depend on the `show_output`
flag: the flag only selects whether rendering happens. -/
theorem foreignCall_result_flag_invariant (req : ForeignCallRequest)
    (b1 b2 : Bool) :
    (ForeignCall.execute req b1).result = (ForeignCall.execute req b2).result := by
  simp only [ForeignCall.execute]
  split_ifs <;> rfl

/-- A loop driven by a dispatcher whose value does not depend on the flag
produces the same outcome under either flag. -/
theorem executeLoop_flag_invariant {S : Type} (I : ACVMSpec S) (D : Dispatcher)
    (hD : ∀ (r : ForeignCallRequest) (b1 b2 : Bool), D r b1 = D r b2)
    (b1 b2 : Bool) :
    ∀ (fuel : Nat) (s : S),
      executeLoop I D b1 fuel s = executeLoop I D b2 fuel s := by
  intro fuel
  induction fuel with
  | zero => intro s; rfl
  | succ n ih =>
    intro s
    rcases hs : I.solve s with ⟨s1, st⟩
    cases st with
    | Solved => simp [executeLoop, hs]
    | InProgress => simp [executeLoop, hs]
    | Failure e => simp [executeLoop, hs]
    | RequiresForeignCall fc =>
      cases hd : D fc b2 with
      | ok res => simp [executeLoop, hs, hD fc b1 b2, hd, ih]
      | error e => simp [executeLoop, hs, hD fc b1 b2, hd]

/-- C7: the `show_output` flag affects only rendering, never witness
values — the dispatcher returns the same value under either flag; for a
debug-print request the decoded text is rendered exactly once when the flag
is set and not at all otherwise; and a whole `execute_circuit` run returns
the identical outcome (hence identical witness store) with the flag enabled
or disabled. -/
theorem show_output_only_affects_rendering :
    (∀ (req : ForeignCallRequest) (b1 b2 : Bool),
      (ForeignCall.execute req b1).result = (ForeignCall.execute req b2).result) ∧
    (∀ inputs : List (List Nat),
      (ForeignCall.execute ⟨"println", inputs⟩ true).rendered =
        [decodeToText inputs] ∧
      (ForeignCall.execute ⟨"println", inputs⟩ false).rendered = []) ∧
    (∀ (S : Type) (I : ACVMSpec S) (fuel : Nat) (circuit : Circuit)
       (initial_witness : WitnessMap),
      execute_circuit I fuel circuit initial_witness true =
        execute_circuit I fuel circuit initial_witness false) := by
  refine ⟨foreignCall_result_flag_invariant, ?_, ?_⟩
  · intro inputs
    exact ⟨by simp [ForeignCall.execute], by simp [ForeignCall.execute]⟩
  · intro S I fuel circuit initial_witness
    exact executeLoop_flag_invariant I foreignCallDispatch
      (fun r b1 b2 => foreignCall_result_flag_invariant r b1 b2) true false fuel _

/-- A successful suspension-resumption round never shrinks the assigned
key set, given the solver's monotone-fill contract. -/
theorem resumeOnce_mono {S : Type} (I : ACVMSpec S) (D : Dispatcher)
    (show_output : Bool) (hmono : SolveMonotone I) (s s1 : S)
    (h : resumeOnce I D show_output s = some s1) :
    I.assignedKeys s ⊆ I.assignedKeys s1 := by
  unfold resumeOnce at h
  rcases hs : I.solve s with ⟨s2, st⟩
  rw [hs] at h
  have hstep : I.assignedKeys s ⊆ I.assignedKeys s2 := by
    have := hmono.1 s
    rw [hs] at this
    exact this
  cases st with
  | Solved => cases h
  | InProgress => cases h
  | Failure e => cases h
  | RequiresForeignCall fc =>
    have h2 : (match D fc show_output with
      | Except.ok r => some (I.resolve_pending_foreign_call s2 r)
      | Except.error _ => none) = some s1 := h
    cases hd : D fc show_output with
    | ok res =>
      rw [hd] at h2
      cases h2
      exact hstep.trans (hmono.2 s2 res)
    | error e => rw [hd] at h2; cases h2

/-- Iterated rounds never shrink the assigned key set. -/
theorem resumeN_mono {S : Type} (I : ACVMSpec S) (D : Dispatcher)
    (show_output : Bool) (hmono : SolveMonotone I) :
    ∀ (k : Nat) (s sk : S), resumeN I D show_output k s = some sk →
      I.assignedKeys s ⊆ I.assignedKeys sk := by
  intro k
  induction k with
  | zero =>
    intro s sk h
    cases h
    exact Finset.Subset.refl _
  | succ n ih =>
    intro s sk h
    unfold resumeN at h
    cases ho : resumeOnce I D show_output s with
    | none => rw [ho] at h; cases h
    | some s1 =>
      rw [ho] at h
      exact (resumeOnce_mono I D show_output hmono s s1 ho).trans (ih s1 sk h)

/-- Unfolding `resumeN` at the tail: one more round after `k` rounds. -/
theorem resumeN_succ_right {S : Type} (I : ACVMSpec S) (D : Dispatcher)
    (show_output : Bool) :
    ∀ (k : Nat) (s : S),
      resumeN I D show_output (k + 1) s =
        (resumeN I D show_output k s).bind (resumeOnce I D show_output) := by
  intro k
  induction k with
  | zero =>
    intro s
    cases ho : resumeOnce I D show_output s <;> simp [resumeN, ho]
  | succ n ih =>
    intro s
    cases ho : resumeOnce I D show_output s with
    | none => simp [resumeN, ho]
    | some s1 =>
      have lhs : resumeN I D show_output (n + 1 + 1) s =
          resumeN I D show_output (n + 1) s1 := by
        conv_lhs => rw [resumeN]
        rw [ho]
      rw [lhs, ih s1]
      conv_rhs => rw [resumeN]
      rw [ho]

/-- C8: witness filling is monotonic across the whole execution.  Under the
solver's monotone-fill contract (spec section 3: the witness store is
partial and monotonically filled), the assigned-key sets of the solver
states at the tops of loop iterations grow along the run; and for each k,
the assigned set immediately after the k-th resumption (the
`resolve_pending_foreign_call` that follows the k-th `RequiresForeignCall`)
is a superset of the assigned set immediately before the k-th suspension. -/
theorem witness_fill_monotonic {S : Type} (I : ACVMSpec S) (D : Dispatcher)
    (show_output : Bool) (hmono : SolveMonotone I) :
    (∀ (j k : Nat) (s0 sj sk : S), j ≤ k →
      resumeN I D show_output j s0 = some sj →
      resumeN I D show_output k s0 = some sk →
      I.assignedKeys sj ⊆ I.assignedKeys sk) ∧
    (∀ (k : Nat) (s0 sk s1 : S) (fc : ForeignCallRequest)
       (res : ForeignCallResult),
      resumeN I D show_output k s0 = some sk →
      I.solve sk = (s1, ACVMStatus.RequiresForeignCall fc) →
      D fc show_output = Except.ok res →
      resumeN I D show_output (k + 1) s0 =
        some (I.resolve_pending_foreign_call s1 res) ∧
      I.assignedKeys s1 ⊆
        I.assignedKeys (I.resolve_pending_foreign_call s1 res)) := by
  constructor
  · intro j
    induction j with
    | zero =>
      intro k s0 sj sk _ hj hk
      cases hj
      exact resumeN_mono I D show_output hmono k s0 sk hk
    | succ n ih =>
      intro k s0 sj sk hjk hj hk
      cases k with
      | zero => omega
      | succ m =>
        unfold resumeN at hj hk
        cases ho : resumeOnce I D show_output s0 with
        | none => rw [ho] at hj; cases hj
        | some s1 =>
          rw [ho] at hj hk
          exact ih m s1 sj sk (by omega) hj hk
  · intro k s0 sk s1 fc res hk hs hd
    refine ⟨?_, hmono.2 s1 res⟩
    rw [resumeN_succ_right, hk]
    simp [resumeOnce, hs, hd]

/-- The demonstration solver obeys the monotone-fill contract. -/
theorem demoSpec_monotone : SolveMonotone demoSpec := by
  constructor
  · intro s
    cases s with
    | zero => simp [demoSpec]
    | succ n => simp [demoSpec]
  · intro s r
    simp [demoSpec]

/-- Witness for C8 at the demonstration solver: the assigned set at the
start is contained in the assigned set after the first resumption. -/
theorem witness_fill_monotonic_witness :
    demoSpec.assignedKeys 0 ⊆ demoSpec.assignedKeys 2 :=
  (witness_fill_monotonic demoSpec foreignCallDispatch true demoSpec_monotone).1
    0 1 0 0 2 (by omega) rfl
    (by simp [resumeN, resumeOnce, demoSpec, foreignCallDispatch,
      ForeignCall.execute])

/-- C9: an out-of-vocabulary foreign-call identifier is rejected — the
dispatcher yields the distinct `UnknownForeignCall` error and never a
partial result; the loop propagates it out of `execute_circuit` as a typed
execution error; and that error is distinguishable from every solver
failure. -/
theorem unknown_foreign_call_rejected :
    (∀ (req : ForeignCallRequest) (b : Bool),
      req.function ∉ ForeignCall.vocabulary →
      (ForeignCall.execute req b).result =
        Except.error (NargoError.unknownForeignCall req.function)) ∧
    (∀ (S : Type) (I : ACVMSpec S) (b : Bool) (fuel : Nat) (s s1 : S)
       (fc : ForeignCallRequest),
      I.solve s = (s1, ACVMStatus.RequiresForeignCall fc) →
      fc.function ∉ ForeignCall.vocabulary →
      executeLoop I foreignCallDispatch b (fuel + 1) s =
        ExecOutcome.err (NargoError.unknownForeignCall fc.function)) ∧
    (∀ (ident : String) (d : OpcodeResolutionError),
      NargoError.unknownForeignCall ident ≠ NargoError.solverFailure d) := by
  have hdisp : ∀ (req : ForeignCallRequest) (b : Bool),
      req.function ∉ ForeignCall.vocabulary →
      (ForeignCall.execute req b).result =
        Except.error (NargoError.unknownForeignCall req.function) := by
    intro req b h
    simp only [ForeignCall.vocabulary, List.mem_cons, List.not_mem_nil, or_false,
      not_or] at h
    simp [ForeignCall.execute, h.1, h.2]
  refine ⟨hdisp, ?_, ?_⟩
  · intro S I b fuel s s1 fc hs hfc
    have hd : foreignCallDispatch fc b =
        Except.error (NargoError.unknownForeignCall fc.function) := hdisp fc b hfc
    simp [executeLoop, hs, hd]
  · intro ident d h
    exact NargoError.noConfusion h

/-- Witness for C9 at a solver requesting the unrecognized identifier
"frobnicate". -/
theorem unknown_foreign_call_rejected_witness :
    executeLoop unknownCallSpec foreignCallDispatch true 1 () =
      ExecOutcome.err (NargoError.unknownForeignCall "frobnicate") :=
  unknown_foreign_call_rejected.2.1 Unit unknownCallSpec true 0 () ()
    ⟨"frobnicate", []⟩ rfl (by decide)

/-- C10: `execute_circuit` hands a witness store to the caller exactly on
the `Solved` path — an `Ok` outcome implies some loop iteration's `solve`
call returned `Solved` and the returned store is the `finalize` of the
solver state that call produced; and on every `Err` outcome (a solver
failure or a dispatch error) the loop performed zero `finalize` calls, so
no partial witness store is ever returned. -/
theorem execute_ok_iff_solved {S : Type} (I : ACVMSpec S) (D : Dispatcher)
    (show_output : Bool) :
    ∀ (fuel : Nat) (s : S),
      (∀ w, executeLoop I D show_output fuel s = ExecOutcome.ok w →
        ∃ (k : Nat) (sfin s1 : S),
          resumeN I D show_output k s = some sfin ∧
          I.solve sfin = (s1, ACVMStatus.Solved) ∧ w = I.finalize s1) ∧
      (∀ e, executeLoop I D show_output fuel s = ExecOutcome.err e →
        finalizeCalls I D show_output fuel s = 0) := by
  intro fuel
  induction fuel with
  | zero =>
    intro s
    constructor
    · intro w h
      simp [executeLoop] at h
    · intro e h
      simp [executeLoop] at h
  | succ n ih =>
    intro s
    constructor
    · intro w h
      rcases hs : I.solve s with ⟨s1, st⟩
      cases st with
      | Solved =>
        refine ⟨0, s, s1, rfl, hs, ?_⟩
        have hok : ExecOutcome.ok (I.finalize s1) = ExecOutcome.ok w := by
          rw [← h]; simp [executeLoop, hs]
        cases hok
        rfl
      | InProgress => simp [executeLoop, hs] at h
      | Failure e => simp [executeLoop, hs] at h
      | RequiresForeignCall fc =>
        cases hd : D fc show_output with
        | ok res =>
          have h2 : executeLoop I D show_output n
              (I.resolve_pending_foreign_call s1 res) = ExecOutcome.ok w := by
            rw [← h]; simp [executeLoop, hs, hd]
          obtain ⟨k, sfin, sf1, hk, hsv, hw⟩ :=
            (ih (I.resolve_pending_foreign_call s1 res)).1 w h2
          refine ⟨k + 1, sfin, sf1, ?_, hsv, hw⟩
          simp [resumeN, resumeOnce, hs, hd, hk]
        | error e => simp [executeLoop, hs, hd] at h
    · intro e h
      rcases hs : I.solve s with ⟨s1, st⟩
      cases st with
      | Solved => simp [executeLoop, hs] at h
      | InProgress => simp [executeLoop, hs] at h
      | Failure e2 => simp [finalizeCalls, hs]
      | RequiresForeignCall fc =>
        cases hd : D fc show_output with
        | ok res =>
          have h2 : executeLoop I D show_output n
              (I.resolve_pending_foreign_call s1 res) = ExecOutcome.err e := by
            rw [← h]; simp [executeLoop, hs, hd]
          have hfin := (ih (I.resolve_pending_foreign_call s1 res)).2 e h2
          simp [finalizeCalls, hs, hd, hfin]
        | error e2 => simp [finalizeCalls, hs, hd]

/-- Witness for C10 at the demonstration solver: its completed run's `Ok`
store is the finalized store of the state whose `solve` returned `Solved`. -/
theorem execute_ok_iff_solved_witness :
    ∃ (k : Nat) (sfin s1 : Nat),
      resumeN demoSpec foreignCallDispatch true k 0 = some sfin ∧
      demoSpec.solve sfin = (s1, ACVMStatus.Solved) ∧
      ([(0, 7)] : WitnessMap) = demoSpec.finalize s1 :=
  (execute_ok_iff_solved demoSpec foreignCallDispatch true 2 0).1 [(0, 7)]
    (by simp [executeLoop, demoSpec, foreignCallDispatch, ForeignCall.execute])
